import Mathlib

/-!
Verification development for the tool-selection and response-grounding
pipeline of the poc-mcp-client repository (src/src/infra/ai/mcp-agent.ts and
src/src/interface/http-interface.ts).  The agent source file contains several
historical revisions of the same module concatenated; the second revision
(the multi-provider agent with the default-tool fallback policy, referred to
here as R2) and the third revision (the throwing policy, R3) are both
embedded where claims depend on them.

JavaScript runtime values that flow through the pipeline (tool arguments,
tool results, HTTP bodies) are modelled as a JSON value type; JS objects are
association lists of string keys.  Asynchronous I/O (the LLM backends and
the MCP tool host) is modelled by passing the outcome of each external call
as an explicit oracle argument, and a trace records which external calls the
code under test performed.
-/

/-- JSON-like JavaScript runtime value. -/
inductive JVal where
  | jnull
  | jbool (b : Bool)
  | jnum (n : Int)
  | jstr (s : String)
  | jarr (xs : List JVal)
  | jobj (fields : List (String × JVal))
deriving Repr

/-- A JavaScript object: association list of properties in insertion order. -/
abbrev JObj := List (String × JVal)

/-- JavaScript truthiness of a value (no NaN in the integer model). -/
def jsTruthy : JVal → Bool
  | .jnull => false
  | .jbool b => b
  | .jnum n => n != 0
  | .jstr s => !s.isEmpty
  | .jarr _ => true
  | .jobj _ => true

/-- Truthiness of a possibly-absent property (absent reads as undefined). -/
def jsTruthyOpt : Option JVal → Bool
  | none => false
  | some v => jsTruthy v

/-- JavaScript String.prototype.toLowerCase for the ASCII range. -/
def jsToLower (s : String) : String := ⟨s.data.map Char.toLower⟩

/-- Does the second list occur at the head of the first argument list? -/
def listStarts : List Char → List Char → Bool
  | [], _ => true
  | _ :: _, [] => false
  | a :: as, b :: bs => a == b && listStarts as bs

/-- Does the pattern occur contiguously anywhere in the list? -/
def listHasSub (pat : List Char) : List Char → Bool
  | [] => pat.isEmpty
  | s@(_ :: rest) => listStarts pat s || listHasSub pat rest

/-- JavaScript String.prototype.includes. -/
def strIncludes (s pat : String) : Bool := listHasSub pat.data s.data

/-- JavaScript String.prototype.trim. -/
def jsTrim (s : String) : String :=
  ⟨((s.data.dropWhile Char.isWhitespace).reverse.dropWhile Char.isWhitespace).reverse⟩

/-- Escape of one character inside a JSON string literal (the common
escapes; rare control characters are kept verbatim, which no claim
inspects). -/
def escapeJsonChar (c : Char) : String :=
  if c = '"' then "\\\""
  else if c = '\\' then "\\\\"
  else if c = '\n' then "\\n"
  else if c = '\t' then "\\t"
  else if c = '\r' then "\\r"
  else String.singleton c

/-- Escape the body of a JSON string literal. -/
def escapeJson (s : String) : String := String.join (s.data.map escapeJsonChar)

/-- A JSON string literal with its quotes. -/
def jsonQuote (s : String) : String := "\"" ++ escapeJson s ++ "\""

mutual

/-- Compact JSON.stringify(v). -/
def jsonStringify : JVal → String
  | .jnull => "null"
  | .jbool b => if b then "true" else "false"
  | .jnum n => toString n
  | .jstr s => jsonQuote s
  | .jarr xs => "[" ++ stringifyItems xs ++ "]"
  | .jobj o => "\x7b" ++ stringifyMembers o ++ "\x7d"

/-- Comma-separated serialization of array elements. -/
def stringifyItems : List JVal → String
  | [] => ""
  | [x] => jsonStringify x
  | x :: xs => jsonStringify x ++ "," ++ stringifyItems xs

/-- Comma-separated serialization of object members. -/
def stringifyMembers : JObj → String
  | [] => ""
  | [(k, v)] => jsonQuote k ++ ":" ++ jsonStringify v
  | (k, v) :: rest => jsonQuote k ++ ":" ++ jsonStringify v ++ "," ++ stringifyMembers rest

end

mutual

/-- JSON.stringify(v, null, 2) at a given current indentation. -/
def jsonPretty (ind : String) : JVal → String
  | .jarr [] => "[]"
  | .jobj [] => "\x7b\x7d"
  | .jarr xs => "[\n" ++ prettyItems (ind ++ "  ") xs ++ "\n" ++ ind ++ "]"
  | .jobj o => "\x7b\n" ++ prettyMembers (ind ++ "  ") o ++ "\n" ++ ind ++ "\x7d"
  | v => jsonStringify v

/-- Pretty-printed array elements, one per line. -/
def prettyItems (ind : String) : List JVal → String
  | [] => ""
  | [x] => ind ++ jsonPretty ind x
  | x :: xs => ind ++ jsonPretty ind x ++ ",\n" ++ prettyItems ind xs

/-- Pretty-printed object members, one per line. -/
def prettyMembers (ind : String) : JObj → String
  | [] => ""
  | [(k, v)] => ind ++ jsonQuote k ++ ": " ++ jsonPretty ind v
  | (k, v) :: rest => ind ++ jsonQuote k ++ ": " ++ jsonPretty ind v ++ ",\n" ++ prettyMembers ind rest

end

/-- JSON.stringify(v, null, 2). -/
def jsonStringifyPretty (v : JVal) : String := jsonPretty "" v

/-- JavaScript typeof v === "object" (true for objects, arrays and null). -/
def jsTypeofObject : JVal → Bool
  | .jobj _ => true
  | .jarr _ => true
  | .jnull => true
  | _ => false

/-- String(v) for the primitive values the pipeline can meet. -/
def jsToString : JVal → String
  | .jstr s => s
  | .jnum n => toString n
  | .jbool b => if b then "true" else "false"
  | v => jsonStringify v

/-- The recurring idiom typeof r === "object" ? JSON.stringify(r, null, 2) :
String(r) used to render a tool result. -/
def mcpResultToString (r : JVal) : String :=
  if jsTypeofObject r then jsonStringifyPretty r else jsToString r

/-- The declarative JSON schema shape inspected by
SchemaValidator.createZodSchema: a type tag string, an optional properties
map, a required list, and an optional items schema for arrays. -/
inductive RawSchema where
  | node (typeStr : String) (properties : Option (List (String × RawSchema)))
      (required : List String) (items : Option RawSchema)

/-- The runtime validator produced by createZodSchema: the Zod combinators
the source uses.  zobject carries, per declared key, its validator and its
optional flag; Zod objects strip undeclared keys, while zpassthrough is
z.object(\x7b\x7d).passthrough(), which accepts any object unchanged. -/
inductive ZodType where
  | zstring
  | znumber
  | zboolean
  | zany
  | zpassthrough
  | zarray (t : ZodType)
  | zobject (fields : List (String × ZodType × Bool))

/-- The field list of a Zod object validator: key, validator, optional flag. -/
abbrev ZodFields := List (String × ZodType × Bool)

mutual

/-- SchemaValidator.createZodSchema: no properties gives a passthrough empty
object, otherwise an object validator over the declared properties. -/
def createZodSchema : RawSchema → ZodType
  | .node _ none _ _ => .zpassthrough
  | .node _ (some props) required _ => .zobject (zodFields required props)
termination_by s => (sizeOf s, 0)

/-- The Object.entries(...).map loop of createZodSchema: each declared key is
compiled and marked optional when not listed in required. -/
def zodFields (required : List String) : List (String × RawSchema) → ZodFields
  | [] => []
  | (k, p) :: rest => (k, zodOfProp p, !required.contains k) :: zodFields required rest
termination_by l => (sizeOf l, 2)

/-- The switch on prop.type inside createZodSchema.  For type array the
source recurses on prop.items or on the empty schema; the empty schema
compiles to the passthrough object, inlined here in the none branch. -/
def zodOfProp : RawSchema → ZodType
  | .node tstr props required items =>
      if tstr == "string" then .zstring
      else if tstr == "number" then .znumber
      else if tstr == "boolean" then .zboolean
      else if tstr == "object" then createZodSchema (.node tstr props required items)
      else if tstr == "array" then
        match items with
        | some i => .zarray (createZodSchema i)
        | none => .zarray .zpassthrough
      else .zany
termination_by p => (sizeOf p, 1)

end

/-- Does a validator accept the undefined an absent key reads as?  Among the
combinators createZodSchema emits this holds exactly for z.any(), the
compilation of every unrecognized type tag; z.string, z.number, z.boolean,
z.array and both object forms reject undefined. -/
def acceptsUndefined : ZodType → Bool
  | .zany => true
  | _ => false

/-- The presence check Zod performs for the declared keys of an object
validator: a declared key may be absent when it is optional or when its
validator accepts undefined (a z.any() field enforces no presence even when
the key is listed as required). -/
def requiredOk (fields : ZodFields) (o : JObj) : Bool :=
  fields.all (fun f => f.2.2 || acceptsUndefined f.2.1 || (List.lookup f.1 o).isSome)

mutual

/-- Zod runtime parse of a value against a validator.  An object validator
in the default strip mode fails when a non-optional key is absent or a
declared present key mismatches, and drops undeclared keys; passthrough
accepts any object unchanged. -/
def zodParse : ZodType → JVal → Except Unit JVal
  | .zstring, .jstr s => .ok (.jstr s)
  | .znumber, .jnum n => .ok (.jnum n)
  | .zboolean, .jbool b => .ok (.jbool b)
  | .zany, v => .ok v
  | .zpassthrough, .jobj o => .ok (.jobj o)
  | .zarray t, .jarr xs =>
      match parseList t xs with
      | .ok ys => .ok (.jarr ys)
      | .error e => .error e
  | .zobject fields, .jobj o =>
      if requiredOk fields o then
        match parseEntries fields o with
        | .ok r => .ok (.jobj r)
        | .error e => .error e
      else .error ()
  | _, _ => .error ()

/-- Element-wise parse of an array value. -/
def parseList (t : ZodType) : List JVal → Except Unit (List JVal)
  | [] => .ok []
  | x :: xs =>
      match zodParse t x, parseList t xs with
      | .ok y, .ok ys => .ok (y :: ys)
      | .error e, _ => .error e
      | _, .error e => .error e

/-- Member-wise parse of an object value: declared keys are validated and
kept, undeclared keys are stripped. -/
def parseEntries (fields : ZodFields) : JObj → Except Unit JObj
  | [] => .ok []
  | (k, v) :: rest =>
      match parseKey fields k v with
      | none => parseEntries fields rest
      | some (.error e) => .error e
      | some (.ok v') =>
          match parseEntries fields rest with
          | .ok r => .ok ((k, v') :: r)
          | .error e => .error e

/-- Look up the validator declared for a key and run it; none means the key
is undeclared. -/
def parseKey : ZodFields → String → JVal → Option (Except Unit JVal)
  | [], _, _ => none
  | (k', t, _) :: fs, k, v =>
      if k' == k then some (zodParse t v) else parseKey fs k v

end

mutual

/-- Strict conformance of a value to a validator: exactly the inputs on
which Zod parse succeeds without altering anything — declared types match,
required keys are present, and objects carry no undeclared keys. -/
def conformsVal : ZodType → JVal → Bool
  | .zstring, .jstr _ => true
  | .znumber, .jnum _ => true
  | .zboolean, .jbool _ => true
  | .zany, _ => true
  | .zpassthrough, .jobj _ => true
  | .zarray t, .jarr xs => conformsList t xs
  | .zobject fields, .jobj o => requiredOk fields o && conformsEntries fields o
  | _, _ => false

/-- Element-wise conformance of array elements. -/
def conformsList (t : ZodType) : List JVal → Bool
  | [] => true
  | x :: xs => conformsVal t x && conformsList t xs

/-- Member-wise strict conformance: every member is declared and conforms. -/
def conformsEntries (fields : ZodFields) : JObj → Bool
  | [] => true
  | (k, v) :: rest => conformsKey fields k v && conformsEntries fields rest

/-- A member conforms strictly when its key is declared and its value
conforms to the declared validator. -/
def conformsKey : ZodFields → String → JVal → Bool
  | [], _, _ => false
  | (k', t, _) :: fs, k, v =>
      if k' == k then conformsVal t v else conformsKey fs k v

end

/-- Is a key among the declared properties of an object validator? -/
def isDeclared : ZodFields → String → Bool
  | [], _ => false
  | (k', _, _) :: fs, k => k' == k || isDeclared fs k

mutual

/-- Loose member conformance: declared present keys must conform, undeclared
keys are unconstrained (they will be stripped, not rejected). -/
def looseEntries (fields : ZodFields) : JObj → Bool
  | [] => true
  | (k, v) :: rest => looseKey fields k v && looseEntries fields rest

/-- One member under loose conformance. -/
def looseKey : ZodFields → String → JVal → Bool
  | [], _, _ => true
  | (k', t, _) :: fs, k, v =>
      if k' == k then conformsVal t v else looseKey fs k v

end

/-- An MCP tool as fetched from the tool host. -/
structure MCPTool where
  name : String
  description : Option String := none
  inputSchema : Option RawSchema := none

/-- The fallback object built in the catch arm of validateParameters:
the JS expression message: params.message or-else the empty string. -/
def messageFallback (params : JObj) : JObj :=
  [("message",
    match List.lookup "message" params with
    | some v => if jsTruthy v then v else .jstr ""
    | none => .jstr "")]

/-- SchemaValidator.validateParameters (R2, also the R3 copy): with a schema
present, Zod-parse the parameters and on failure degrade to the
message-only fallback; with no tool or no schema, pass the parameters
through.  A successful parse of an object validator always returns an
object, so the remaining ok pattern is unreachable. -/
def validateParameters (tool : Option MCPTool) (params : JObj) : JObj :=
  match tool with
  | none => params
  | some t =>
      match t.inputSchema with
      | none => params
      | some s =>
          match zodParse (createZodSchema s) (.jobj params) with
          | .ok (.jobj r) => r
          | .ok _ => params
          | .error _ => messageFallback params

/-- The result of an intent analysis: a tool name and extracted parameters. -/
structure ToolSelection where
  toolName : String
  params : JObj
deriving Repr

/-- Which LLM service createLLMService instantiated. -/
inductive LLMKind where
  | openai
  | anthropic
  | simple
deriving DecidableEq, Repr

/-- The display label each provider uses in its error messages. -/
def labelOf : LLMKind → String
  | .openai => "OpenAI"
  | .anthropic => "Anthropic"
  | .simple => "Simple"

/-- Observable state of an LLM service: its kind and whether its backend
client is non-null (the simple service needs no client and reports itself
initialized from construction). -/
structure LLMState where
  kind : LLMKind
  clientInit : Bool
deriving Repr

/-- createLLMService: provider-backed services start with a null client; the
simple service starts initialized. -/
def mkLLMState : LLMKind → LLMState
  | .simple => ⟨.simple, true⟩
  | k => ⟨k, false⟩

/-- Oracle for one backend intent-analysis request: the request rejected, or
its text yielded no usable JSON object with truthy toolName and parameters
fields, or it parsed to such an object. -/
inductive IntentBackendOutcome where
  | requestError
  | badFormat
  | parsed (toolName : String) (parameters : JObj)
deriving Repr

/-- Oracle for one backend grounded-response request. -/
inductive GenBackendOutcome where
  | requestError
  | badFormat
  | text (s : String)
deriving Repr

/-- Oracle for one tool host callTool invocation. -/
inductive CallToolOutcome where
  | ok (result : JVal)
  | err (msg : String)
deriving Repr

/-- The oracle bundle for one sendMessage exchange. -/
structure Outcomes where
  intent : IntentBackendOutcome
  call : CallToolOutcome
  gen : GenBackendOutcome
deriving Repr

/-- R2 OpenAIService.analyzeUserIntent and AnthropicService.analyzeUserIntent
after the client-null guard: every failure inside the try block falls back
to the default tool with the whole message as sole parameter, and a parsed
selection naming an unknown tool does the same. -/
def providerAnalyzeR2 (message : String) (tools : List MCPTool) (defaultToolName : String)
    (o : IntentBackendOutcome) : ToolSelection :=
  match o with
  | .requestError => ⟨defaultToolName, [("message", .jstr message)]⟩
  | .badFormat => ⟨defaultToolName, [("message", .jstr message)]⟩
  | .parsed name ps =>
      if tools.any (fun t => t.name == name) then ⟨name, ps⟩
      else ⟨defaultToolName, [("message", .jstr message)]⟩

/-- The for-loop of SimpleIntentService.analyzeUserIntent: the first tool
whose lowercased name appears in the lowercased message after the word use. -/
def firstMentionedTool (message : String) : List MCPTool → Option String
  | [] => none
  | t :: ts =>
      if strIncludes (jsToLower message) ("use " ++ jsToLower t.name) then some t.name
      else firstMentionedTool message ts

/-- R2 SimpleIntentService.analyzeUserIntent: substring match over the
catalog, defaulting to the default tool; the parameters are always the full
message. -/
def simpleAnalyzeR2 (message : String) (tools : List MCPTool) (defaultToolName : String) :
    ToolSelection :=
  ⟨(firstMentionedTool message tools).getD defaultToolName, [("message", .jstr message)]⟩

/-- Did dispatching an intent analysis reach a provider backend?  Only a
provider-backed service with a non-null client issues a request. -/
def intentBackendTried (st : LLMState) : Bool := st.kind != .simple && st.clientInit

/-- R2 LLMService.analyzeUserIntent dispatch: provider-backed services throw
before their try block when the client is null; the Bool records whether a
backend request was issued. -/
def llmAnalyzeR2 (st : LLMState) (message : String) (tools : List MCPTool)
    (defaultToolName : String) (o : IntentBackendOutcome) :
    Except String ToolSelection × Bool :=
  match st.kind with
  | .simple => (.ok (simpleAnalyzeR2 message tools defaultToolName), false)
  | k =>
      if st.clientInit then (.ok (providerAnalyzeR2 message tools defaultToolName o), true)
      else (.error (labelOf k ++ " client not initialized"), false)

/-- The fallback string both providers return when grounded-response
generation fails: a fixed sentence followed by JSON.stringify of the raw
tool result. -/
def genFallbackMsg (mcpResponse : JVal) : String :=
  "Não foi possível elaborar uma resposta contextualizada. Aqui estão os dados brutos: "
    ++ jsonStringify mcpResponse

/-- OpenAIService.generateResponse and AnthropicService.generateResponse
(identical in R2 and R3 up to the provider label): throw when the client is
null, return the backend text trimmed on success, and swallow every backend
failure into the fallback string carrying the serialized tool result. -/
def providerGenerate (clientInit : Bool) (label : String) (mcpResponse : JVal)
    (o : GenBackendOutcome) : Except String String :=
  if clientInit = false then .error (label ++ " client not initialized")
  else
    match o with
    | .text s => .ok (jsTrim s)
    | .requestError => .ok (genFallbackMsg mcpResponse)
    | .badFormat => .ok (genFallbackMsg mcpResponse)

/-- SimpleIntentService.generateResponse: the raw tool result, pretty
printed when it is an object. -/
def simpleGenerate (mcpResponse : JVal) : String := mcpResultToString mcpResponse

/-- LLMService.generateResponse dispatch; the Bool records whether a backend
request was issued. -/
def llmGenerate (st : LLMState) (mcpResponse : JVal) (o : GenBackendOutcome) :
    Except String String × Bool :=
  match st.kind with
  | .simple => (.ok (simpleGenerate mcpResponse), false)
  | k => (providerGenerate st.clientInit (labelOf k) mcpResponse o, st.clientInit)

/-- MCPAgent session state (R2): the MCP client handle, the catalog snapshot,
the default tool name, and the owned LLM service. -/
structure AgentState where
  clientInit : Bool
  availableTools : List MCPTool
  defaultToolName : String
  llm : LLMState

/-- The R2 MCPAgent constructor: no client yet, empty catalog, the given
default tool name (the source default is get_employees), and the service
createLLMService builds for the configured provider. -/
def mkAgent (k : LLMKind) (defaultToolName : String := "get_employees") : AgentState :=
  ⟨false, [], defaultToolName, mkLLMState k⟩

/-- Oracle for the connect plus listTools phase of initialize. -/
inductive ConnectOutcome where
  | ok (tools : List MCPTool)
  | err (msg : String)

/-- R2 MCPAgent.initialize: a transport or catalog failure is rethrown
wrapped; an LLM-service initialization failure is caught, logged and
non-fatal, leaving the provider client null. -/
def initializeAgentR2 (st : AgentState) (conn : ConnectOutcome) (llmInitOk : Bool) :
    Except String AgentState :=
  match conn with
  | .err m => .error ("Failed to initialize MCP client: " ++ m)
  | .ok tools =>
      let st1 := { st with clientInit := true, availableTools := tools }
      if llmInitOk then .ok { st1 with llm := { st1.llm with clientInit := true } }
      else .ok st1

/-- R2 MCPAgent.interpretMessage: guard on the MCP client, then delegate to
the LLM service; any analysis error is caught and replaced by the default
tool with the whole message. -/
def interpretMessageR2 (st : AgentState) (message : String) (o : IntentBackendOutcome) :
    Except String ToolSelection × Bool :=
  if st.clientInit = false then (.error "MCP client not initialized", false)
  else
    match llmAnalyzeR2 st.llm message st.availableTools st.defaultToolName o with
    | (.ok r, b) => (.ok r, b)
    | (.error _, b) => (.ok ⟨st.defaultToolName, [("message", .jstr message)]⟩, b)

/-- The single wrapper the R2 sendMessage catch arm applies to any error of
the exchange. -/
def mcpFailMsg (m : String) : String := "Failed to get response from MCP server: " ++ m

/-- What one sendMessage exchange did to the outside world: the callTool
invocations it issued (name and arguments), whether an intent-analysis
backend request was issued, and whether the grounded-response generation of
the LLM service was invoked. -/
structure Trace where
  toolCalls : List (String × JObj)
  intentBackend : Bool
  genInvoked : Bool
deriving Repr

/-- R2 MCPAgent.sendMessage: guard, interpret, look the selected tool up in
the catalog, validate the parameters against its schema, invoke the tool
host, then ground the response; every error inside the try block is wrapped
by mcpFailMsg. -/
def sendMessageR2 (st : AgentState) (message : String) (oc : Outcomes) :
    Except String String × Trace :=
  if st.clientInit = false then (.error "MCP client not initialized", ⟨[], false, false⟩)
  else
    match interpretMessageR2 st message oc.intent with
    | (.error m, b) => (.error (mcpFailMsg m), ⟨[], b, false⟩)
    | (.ok sel, b) =>
        let selectedTool := st.availableTools.find? (fun t => t.name == sel.toolName)
        let validated := validateParameters selectedTool sel.params
        match oc.call with
        | .err m => (.error (mcpFailMsg m), ⟨[(sel.toolName, validated)], b, false⟩)
        | .ok result =>
            match llmGenerate st.llm result oc.gen with
            | (.ok text, _) => (.ok text, ⟨[(sel.toolName, validated)], b, true⟩)
            | (.error m, _) => (.error (mcpFailMsg m), ⟨[(sel.toolName, validated)], b, true⟩)

/-- R2 MCPAgent.close: the MCP client and transport are nulled, and the LLM
service is closed (providers null their client; the simple service keeps
its flag). -/
def closeAgentR2 (st : AgentState) : AgentState :=
  { st with clientInit := false,
            llm := { st.llm with clientInit := st.llm.kind == .simple && st.llm.clientInit } }

/-- R3 provider analyzeUserIntent catch arm: with an empty catalog one
message, otherwise the provider-specific could-not-determine message. -/
def analyzeFailR3 (label : String) (tools : List MCPTool) : Except String ToolSelection :=
  if tools.isEmpty then
    .error "Não há ferramentas disponíveis para processar a solicitação"
  else
    .error ("Não foi possível determinar a ferramenta apropriada para a solicitação do "
      ++ label)

/-- R3 OpenAIService.analyzeUserIntent and AnthropicService.analyzeUserIntent:
the same pipeline as R2 but a parse failure or unknown tool name throws
instead of defaulting. -/
def providerAnalyzeR3 (label : String) (clientInit : Bool) (tools : List MCPTool)
    (o : IntentBackendOutcome) : Except String ToolSelection :=
  if clientInit = false then .error (label ++ " client not initialized")
  else
    match o with
    | .parsed name ps =>
        if tools.any (fun t => t.name == name) then .ok ⟨name, ps⟩
        else analyzeFailR3 label tools
    | .requestError => analyzeFailR3 label tools
    | .badFormat => analyzeFailR3 label tools

/-- R3 SimpleIntentService.analyzeUserIntent: empty catalog throws, a
substring match selects, anything else throws. -/
def simpleAnalyzeR3 (message : String) (tools : List MCPTool) : Except String ToolSelection :=
  if tools.isEmpty then
    .error "Não há ferramentas disponíveis para processar a solicitação"
  else
    match firstMentionedTool message tools with
    | some n => .ok ⟨n, [("message", .jstr message)]⟩
    | none => .error "Não foi possível determinar a ferramenta apropriada para a solicitação"

/-- R3 LLMService.analyzeUserIntent dispatch. -/
def llmAnalyzeR3 (st : LLMState) (message : String) (tools : List MCPTool)
    (o : IntentBackendOutcome) : Except String ToolSelection :=
  match st.kind with
  | .simple => simpleAnalyzeR3 message tools
  | k => providerAnalyzeR3 (labelOf k) st.clientInit tools o

/-- The error the R3 interpretMessage and sendMessage catch arms raise. -/
def sendFailR3 (st : AgentState) : String :=
  if st.availableTools.isEmpty then
    "Não há ferramentas disponíveis no servidor MCP para processar a solicitação"
  else "Não foi possível determinar a ferramenta apropriada para a solicitação"

/-- R3 MCPAgent.interpretMessage: analysis errors are caught and rethrown as
the catalog-dependent selection error. -/
def interpretMessageR3 (st : AgentState) (message : String) (o : IntentBackendOutcome) :
    Except String ToolSelection :=
  if st.clientInit = false then .error "MCP client not initialized"
  else
    match llmAnalyzeR3 st.llm message st.availableTools o with
    | .ok r => .ok r
    | .error _ => .error (sendFailR3 st)

/-- R3 MCPAgent.sendMessage: same pipeline as R2, but the catch arm wraps
every failure of the exchange — including a callTool rejection — into the
catalog-dependent selection error instead of the failed-to-get-response
wrapper. -/
def sendMessageR3 (st : AgentState) (message : String) (oc : Outcomes) :
    Except String String × Trace :=
  if st.clientInit = false then (.error "MCP client not initialized", ⟨[], false, false⟩)
  else
    match interpretMessageR3 st message oc.intent with
    | .error _ => (.error (sendFailR3 st), ⟨[], intentBackendTried st.llm, false⟩)
    | .ok sel =>
        let selectedTool := st.availableTools.find? (fun t => t.name == sel.toolName)
        let validated := validateParameters selectedTool sel.params
        match oc.call with
        | .err _ =>
            (.error (sendFailR3 st), ⟨[(sel.toolName, validated)], intentBackendTried st.llm, false⟩)
        | .ok result =>
            match llmGenerate st.llm result oc.gen with
            | (.ok text, _) =>
                (.ok text, ⟨[(sel.toolName, validated)], intentBackendTried st.llm, true⟩)
            | (.error _, _) =>
                (.error (sendFailR3 st),
                  ⟨[(sel.toolName, validated)], intentBackendTried st.llm, true⟩)

/-- An HTTP response as the chat route builds it: status code and JSON body. -/
structure HttpResponse where
  status : Nat
  body : JObj
deriving Repr

/-- The POST /chat handler of HttpInterface.initialize: destructure message
from the body, reject falsy messages with 400 before touching the agent,
otherwise reply 200 with the agent answer or 500 with the wrapped error.
The Bool records whether agent.sendMessage was called. -/
def chatHandler (body : JObj) (send : Except String String) : HttpResponse × Bool :=
  if jsTruthyOpt (List.lookup "message" body) = false then
    (⟨400, [("error", .jstr "Message is required")]⟩, false)
  else
    match send with
    | .ok answer => (⟨200, [("answer", .jstr answer)]⟩, true)
    | .error m => (⟨500, [("error", .jstr ("Error processing message: " ++ m))]⟩, true)

/-- Strict conformance forces a successful, unchanged Zod parse; proved by
strong induction on the size of the validator, which strictly decreases into
array element validators and declared-field validators. -/
theorem zodParse_of_conformsVal_aux :
    ∀ (N : Nat) (t : ZodType) (v : JVal), sizeOf t ≤ N →
      conformsVal t v = true → zodParse t v = Except.ok v := by
  intro N
  induction N with
  | zero =>
      intro t v hle _
      exfalso
      cases t <;> simp at hle
  | succ N ih =>
      intro t v hle hc
      cases t with
      | zstring => cases v <;> simp_all [conformsVal, zodParse]
      | znumber => cases v <;> simp_all [conformsVal, zodParse]
      | zboolean => cases v <;> simp_all [conformsVal, zodParse]
      | zany => simp [zodParse]
      | zpassthrough => cases v <;> simp_all [conformsVal, zodParse]
      | zarray t' =>
          cases v with
          | jarr xs =>
              have ht' : sizeOf t' ≤ N := by simp at hle; omega
              have hc' : conformsList t' xs = true := by simpa [conformsVal] using hc
              have hlist : ∀ ys, conformsList t' ys = true →
                  parseList t' ys = Except.ok ys := by
                intro ys
                induction ys with
                | nil => intro _; simp [parseList]
                | cons y ys ihy =>
                    intro h
                    rw [conformsList] at h
                    simp at h
                    simp [parseList, ih t' y ht' h.1, ihy h.2]
              simp [zodParse, hlist xs hc']
          | jnull => simp [conformsVal] at hc
          | jbool b => simp [conformsVal] at hc
          | jnum n => simp [conformsVal] at hc
          | jstr s => simp [conformsVal] at hc
          | jobj o => simp [conformsVal] at hc
      | zobject fields =>
          cases v with
          | jobj o =>
              have hfs : sizeOf fields ≤ N := by simp at hle; omega
              have hc' : requiredOk fields o = true ∧ conformsEntries fields o = true := by
                simpa [conformsVal] using hc
              have hkey : ∀ (fs : ZodFields) k v, sizeOf fs ≤ N → conformsKey fs k v = true →
                  parseKey fs k v = some (Except.ok v) := by
                intro fs
                induction fs with
                | nil => intro k v _ h; simp [conformsKey] at h
                | cons f fs ihf =>
                    obtain ⟨k', t', b⟩ := f
                    intro k v hle2 h
                    by_cases hk : (k' == k) = true
                    · rw [conformsKey] at h
                      simp only [hk, if_true] at h
                      have htle : sizeOf t' ≤ N := by simp at hle2; omega
                      simp [parseKey, hk, ih t' v htle h]
                    · rw [conformsKey] at h
                      simp only [hk, if_false, Bool.false_eq_true] at h
                      have hfsle : sizeOf fs ≤ N := by simp at hle2; omega
                      simp [parseKey, hk, ihf k v hfsle h]
              have hent : ∀ (os : JObj), conformsEntries fields os = true →
                  parseEntries fields os = Except.ok os := by
                intro os
                induction os with
                | nil => intro _; simp [parseEntries]
                | cons e os iho =>
                    obtain ⟨k, v⟩ := e
                    intro h
                    rw [conformsEntries] at h
                    simp at h
                    simp [parseEntries, hkey fields k v hfs h.1, iho h.2]
              simp [zodParse, hc'.1, hent o hc'.2]
          | jnull => simp [conformsVal] at hc
          | jbool b => simp [conformsVal] at hc
          | jnum n => simp [conformsVal] at hc
          | jstr s => simp [conformsVal] at hc
          | jarr xs => simp [conformsVal] at hc

/-- Zod parse is the identity on strictly conforming input. -/
theorem zodParse_of_conformsVal (t : ZodType) (v : JVal)
    (h : conformsVal t v = true) : zodParse t v = Except.ok v :=
  zodParse_of_conformsVal_aux (sizeOf t) t v (Nat.le_refl _) h

/-- Every declared property of a raw schema appears, compiled, in the field
list produced by createZodSchema, with its optional flag derived from the
required list. -/
theorem zodFields_mem (required : List String) :
    ∀ (props : List (String × RawSchema)) (k : String) (p : RawSchema),
      (k, p) ∈ props →
      (k, zodOfProp p, !required.contains k) ∈ zodFields required props := by
  intro props
  induction props with
  | nil => intro k p h; cases h
  | cons e rest ihp =>
      obtain ⟨k', p'⟩ := e
      intro k p h
      rw [zodFields]
      rcases List.mem_cons.mp h with h1 | h2
      · obtain ⟨hk, hp⟩ := Prod.mk.injEq .. ▸ h1
        subst hk; subst hp
        exact List.mem_cons_self _ _
      · exact List.mem_cons_of_mem _ (ihp k p h2)

/-- A non-optional declared key whose validator rejects undefined and which
is absent from the candidate makes the Zod required-presence check fail. -/
theorem requiredOk_eq_false (fields : ZodFields) (o : JObj) (k : String) (t : ZodType)
    (hmem : (k, t, false) ∈ fields) (hany : acceptsUndefined t = false)
    (habs : List.lookup k o = none) :
    requiredOk fields o = false := by
  rw [requiredOk]
  rw [List.all_eq_false]
  exact ⟨(k, t, false), hmem, by simp [habs, hany]⟩

/-- validateParameters degrades to the message-only fallback whenever the
schema declares a required property that the candidate lacks, provided the
property's type tag is one the compiler recognizes — an unrecognized tag
compiles to z.any(), which accepts the absence. -/
theorem validateParameters_requiredMissing
    (tool : MCPTool) (tstr : String) (props : List (String × RawSchema))
    (required : List String) (items : Option RawSchema)
    (k : String) (p : RawSchema) (params : JObj)
    (hschema : tool.inputSchema = some (.node tstr (some props) required items))
    (hmem : (k, p) ∈ props)
    (hreq : required.contains k = true)
    (hany : acceptsUndefined (zodOfProp p) = false)
    (habs : List.lookup k params = none) :
    validateParameters (some tool) params = messageFallback params := by
  have hf := zodFields_mem required props k p hmem
  rw [hreq] at hf
  have hro : requiredOk (zodFields required props) params = false :=
    requiredOk_eq_false _ _ _ _ (by simpa using hf) hany habs
  simp [validateParameters, hschema, createZodSchema, zodParse, hro]

/-- Under loose conformance, looking a key up in the field list parses its
value unchanged when the key is declared and reports undeclared otherwise. -/
theorem parseKey_of_looseKey :
    ∀ (fs : ZodFields) (k : String) (v : JVal), looseKey fs k v = true →
      parseKey fs k v = (if isDeclared fs k then some (Except.ok v) else none) := by
  intro fs
  induction fs with
  | nil => intro k v _; simp [parseKey, isDeclared]
  | cons f fs ihf =>
      obtain ⟨k', t', b⟩ := f
      intro k v h
      by_cases hk : (k' == k) = true
      · rw [looseKey] at h
        simp only [hk, if_true] at h
        simp [parseKey, isDeclared, hk, zodParse_of_conformsVal _ _ h]
      · rw [looseKey] at h
        simp only [hk, if_false, Bool.false_eq_true] at h
        simp [parseKey, isDeclared, hk, ihf k v h]

/-- Under loose conformance the member-wise parse succeeds and returns the
candidate restricted to its declared keys. -/
theorem parseEntries_of_loose (fields : ZodFields) :
    ∀ (o : JObj), looseEntries fields o = true →
      parseEntries fields o = Except.ok (o.filter (fun e => isDeclared fields e.1)) := by
  intro o
  induction o with
  | nil => intro _; simp [parseEntries]
  | cons e rest iho =>
      obtain ⟨k, v⟩ := e
      intro h
      rw [looseEntries] at h
      simp at h
      have hpk := parseKey_of_looseKey fields k v h.1
      by_cases hd : isDeclared fields k = true
      · simp [parseEntries, hpk, hd, iho h.2, List.filter_cons]
      · simp only [Bool.not_eq_true] at hd
        simp [parseEntries, hpk, hd, iho h.2, List.filter_cons]

/-- A Zod object validator in strip mode, on a candidate whose declared
members conform and whose required members are present, succeeds and strips
exactly the undeclared keys. -/
theorem zodParse_strips (fields : ZodFields) (o : JObj)
    (hreq : requiredOk fields o = true) (hl : looseEntries fields o = true) :
    zodParse (.zobject fields) (.jobj o) =
      Except.ok (.jobj (o.filter (fun e => isDeclared fields e.1))) := by
  simp [zodParse, hreq, parseEntries_of_loose fields o hl]

/-- A pattern matching at the head of a list still matches after an append. -/
theorem listStarts_append (pat : List Char) :
    ∀ (x y : List Char), listStarts pat x = true → listStarts pat (x ++ y) = true := by
  induction pat with
  | nil => intro x y _; rw [listStarts]
  | cons a as ihp =>
      intro x y h
      cases x with
      | nil => rw [listStarts] at h; cases h
      | cons b bs =>
          rw [listStarts] at h
          simp at h
          simp [List.cons_append, listStarts, h.1, ihp bs y h.2]

/-- A pattern matching at the head of a list occurs in it. -/
theorem listHasSub_of_starts (pat s : List Char) (h : listStarts pat s = true) :
    listHasSub pat s = true := by
  cases s with
  | nil =>
      cases pat with
      | nil => rw [listHasSub]; rfl
      | cons a as => rw [listStarts] at h; cases h
  | cons c cs => simp [listHasSub, h]

/-- The error wrapper of the R2 sendMessage catch arm always contains the
phrase failed to get response, compared case-insensitively. -/
theorem mcpFailMsg_contains_phrase (m : String) :
    strIncludes (jsToLower (mcpFailMsg m)) "failed to get response" = true := by
  have hdata : (jsToLower (mcpFailMsg m)).data =
      (jsToLower "Failed to get response from MCP server: ").data ++ (jsToLower m).data := by
    simp [jsToLower, mcpFailMsg, String.data_append]
  rw [strIncludes, hdata]
  apply listHasSub_of_starts
  apply listStarts_append
  decide

/-- With a live MCP client, the R2 interpretMessage never propagates an
error: every analysis failure is replaced by the default selection. -/
theorem interpretMessageR2_isOk (st : AgentState) (message : String)
    (o : IntentBackendOutcome) (hclient : st.clientInit = true) :
    ∃ sel b, interpretMessageR2 st message o = (Except.ok sel, b) := by
  rcases h : llmAnalyzeR2 st.llm message st.availableTools st.defaultToolName o with ⟨r, b⟩
  cases r with
  | ok sel => exact ⟨sel, b, by simp [interpretMessageR2, hclient, h]⟩
  | error m =>
      exact ⟨⟨st.defaultToolName, [("message", .jstr message)]⟩, b,
        by simp [interpretMessageR2, hclient, h]⟩

/-- The schema of the get_weather example tool of the spec scenario:
properties city of type string, required city. -/
def citySchema : RawSchema :=
  .node "object" (some [("city", .node "string" none [] none)]) ["city"] none

/-- The get_weather example tool. -/
def weatherTool : MCPTool := ⟨"get_weather", none, some citySchema⟩

/-- A schemaless tool used to build concrete agent states. -/
def otherTool : MCPTool := ⟨"other_tool", none, none⟩

/-- C2: for every tool schema S and every candidate argument map C that
conforms to S — its required properties are present, every property it
carries is declared with a value of the declared kind, recursively —
validateParameters returns C unchanged: round-trip identity with no
information loss for well-formed input. -/
theorem C2_roundtrip (tool : MCPTool) (s : RawSchema) (params : JObj)
    (hschema : tool.inputSchema = some s)
    (hconf : conformsVal (createZodSchema s) (JVal.jobj params) = true) :
    validateParameters (some tool) params = params := by
  have h := zodParse_of_conformsVal _ _ hconf
  simp [validateParameters, hschema, h]

/-- Witness for C2 at the get_weather schema with a conforming candidate. -/
theorem C2_roundtrip_witness :
    validateParameters (some weatherTool) [("city", JVal.jstr "Lisboa")] =
      [("city", JVal.jstr "Lisboa")] := by
  apply C2_roundtrip weatherTool citySchema _ rfl
  simp [citySchema, createZodSchema, zodFields, zodOfProp, conformsVal, conformsEntries,
    conformsKey, requiredOk, acceptsUndefined]

/-- C3 (counterexample to the claim as stated): with the get_weather schema,
whose required city property is absent from the empty candidate, the code
does not return an empty object — it returns the object with a message key
bound to the empty string. -/
theorem C3_counterexample :
    validateParameters (some weatherTool) [] = [("message", JVal.jstr "")] ∧
      validateParameters (some weatherTool) [] ≠ ([] : JObj) := by
  have h := validateParameters_requiredMissing weatherTool "object"
    [("city", RawSchema.node "string" none [] none)] ["city"] none "city"
    (RawSchema.node "string" none [] none) [] rfl (by simp) (by decide)
    (by simp [zodOfProp, acceptsUndefined]) rfl
  refine ⟨by rw [h]; rfl, by rw [h]; simp [messageFallback]⟩

/-- C3 (amended): for every schema with a required property absent from the
candidate, where that property compiles to a validator rejecting undefined
— its type tag is a recognized one, not the z.any() an unrecognized tag
yields — validateParameters never throws and returns a message-only object:
the candidate's message value when that value is truthy, and the empty
string otherwise — in particular the result is never the empty object.
(A required property of unrecognized type enforces no presence at all: the
parse then succeeds and no fallback is produced.) -/
theorem C3_required_missing_amended (tool : MCPTool) (tstr : String)
    (props : List (String × RawSchema)) (required : List String) (items : Option RawSchema)
    (k : String) (p : RawSchema) (params : JObj)
    (hschema : tool.inputSchema = some (.node tstr (some props) required items))
    (hmem : (k, p) ∈ props) (hreq : required.contains k = true)
    (hany : acceptsUndefined (zodOfProp p) = false)
    (habs : List.lookup k params = none) :
    validateParameters (some tool) params =
      [("message",
        match List.lookup "message" params with
        | some v => if jsTruthy v then v else JVal.jstr ""
        | none => JVal.jstr "")] := by
  rw [validateParameters_requiredMissing tool tstr props required items k p params hschema
    hmem hreq hany habs]
  rfl

/-- Witness for the amended C3 at the get_weather schema with a message-only
candidate. -/
theorem C3_required_missing_amended_witness :
    validateParameters (some weatherTool) [("message", JVal.jstr "oi")] =
      [("message", JVal.jstr "oi")] := by
  have h := C3_required_missing_amended weatherTool "object"
    [("city", RawSchema.node "string" none [] none)] ["city"] none "city"
    (RawSchema.node "string" none [] none) [("message", JVal.jstr "oi")]
    rfl (by simp) (by decide) (by simp [zodOfProp, acceptsUndefined]) (by simp)
  have ht : jsTruthy (JVal.jstr "oi") = true := by decide
  simpa [ht] using h

/-- C8: scenario A — with the schema-free variant and the get_weather
catalog, the message use get_weather for Lisbon selects get_weather with
the whole message as sole parameter, and validating those parameters
against the schema, which requires the absent city key, degrades to the
message-only fallback carrying the original message. -/
theorem C8_scenario_a :
    simpleAnalyzeR2 "use get_weather for Lisbon" [weatherTool] "get_employees" =
        ⟨"get_weather", [("message", JVal.jstr "use get_weather for Lisbon")]⟩ ∧
      validateParameters (some weatherTool)
          [("message", JVal.jstr "use get_weather for Lisbon")] =
        [("message", JVal.jstr "use get_weather for Lisbon")] := by
  constructor
  · have hinc : strIncludes (jsToLower "use get_weather for Lisbon")
        ("use " ++ jsToLower "get_weather") = true := by decide
    simp [simpleAnalyzeR2, firstMentionedTool, weatherTool, hinc]
  · have h := validateParameters_requiredMissing weatherTool "object"
      [("city", RawSchema.node "string" none [] none)] ["city"] none "city"
      (RawSchema.node "string" none [] none)
      [("message", JVal.jstr "use get_weather for Lisbon")]
      rfl (by simp) (by decide) (by simp [zodOfProp, acceptsUndefined]) (by simp)
    have ht : jsTruthy (JVal.jstr "use get_weather for Lisbon") = true := by decide
    rw [h]
    simp [messageFallback, ht]

/-- C9: when a schema declares a properties map, a candidate whose declared
members conform and whose required members are present validates
successfully, and the result is the candidate with its undeclared keys
silently removed — they are neither rejected nor passed through. -/
theorem C9_undeclared_stripped (tool : MCPTool) (tstr : String)
    (props : List (String × RawSchema)) (required : List String) (items : Option RawSchema)
    (params : JObj)
    (hschema : tool.inputSchema = some (.node tstr (some props) required items))
    (hreq : requiredOk (zodFields required props) params = true)
    (hl : looseEntries (zodFields required props) params = true)
    (hextra : ∃ e ∈ params, isDeclared (zodFields required props) e.1 = false) :
    validateParameters (some tool) params =
        params.filter (fun e => isDeclared (zodFields required props) e.1) ∧
      validateParameters (some tool) params ≠ params := by
  have hmain : validateParameters (some tool) params =
      params.filter (fun e => isDeclared (zodFields required props) e.1) := by
    simp [validateParameters, hschema, createZodSchema,
      zodParse_strips (zodFields required props) params hreq hl]
  refine ⟨hmain, ?_⟩
  rw [hmain]
  intro hcontra
  obtain ⟨e, hmemE, hfalse⟩ := hextra
  have hall := List.filter_eq_self.mp hcontra e hmemE
  rw [hfalse] at hall
  cases hall

/-- Witness for C9 at the get_weather schema with one undeclared key. -/
theorem C9_undeclared_stripped_witness :
    validateParameters (some weatherTool)
        [("city", JVal.jstr "Porto"), ("extra", JVal.jnum 3)] =
      [("city", JVal.jstr "Porto")] := by
  have h := (C9_undeclared_stripped weatherTool "object"
    [("city", RawSchema.node "string" none [] none)] ["city"] none
    [("city", JVal.jstr "Porto"), ("extra", JVal.jnum 3)]
    rfl
    (by simp [requiredOk, zodFields, zodOfProp, acceptsUndefined])
    (by simp [looseEntries, looseKey, zodFields, zodOfProp, conformsVal])
    ⟨("extra", JVal.jnum 3), by simp, by simp [isDeclared, zodFields, zodOfProp]⟩).1
  simpa [zodFields, zodOfProp, isDeclared, List.filter] using h

/-- C10: the POST chat route rejects every request whose message field is
falsy — absent, empty string, zero, false or null — with status 400 and the
error body, and never calls the agent. -/
theorem C10_falsy_message (body : JObj) (send : Except String String)
    (h : jsTruthyOpt (List.lookup "message" body) = false) :
    chatHandler body send = (⟨400, [("error", JVal.jstr "Message is required")]⟩, false) := by
  simp [chatHandler, h]

/-- Witness for C10 at an empty-string message. -/
theorem C10_falsy_message_witness :
    chatHandler [("message", JVal.jstr "")] (.ok "unused") =
      (⟨400, [("error", JVal.jstr "Message is required")]⟩, false) :=
  C10_falsy_message _ _ (by decide)

/-- Concrete R2 agent state: live client, catalog without the default tool,
provider-backed service with a live backend client. -/
def stC1 : AgentState := ⟨true, [otherTool], "get_employees", ⟨.openai, true⟩⟩

/-- Outcomes in which the backend selects a tool name outside the catalog. -/
def ocC1 : Outcomes := ⟨.parsed "bogus_tool" [], .ok .jnull, .text "ok"⟩

/-- C1 (counterexample to the claim as stated): when the intent analysis
names an unknown tool, R2 substitutes the default tool name — but the
catalog here does not contain the default either, and callTool is
nevertheless invoked with it, so the tool host does receive a name outside
the catalog. -/
theorem C1_counterexample :
    (sendMessageR2 stC1 "hello" ocC1).2.toolCalls =
        [("get_employees", [("message", JVal.jstr "hello")])] ∧
      stC1.availableTools.any (fun t => t.name == "get_employees") = false := by
  constructor
  · simp [sendMessageR2, stC1, ocC1, interpretMessageR2, llmAnalyzeR2, providerAnalyzeR2,
      otherTool, validateParameters, llmGenerate, providerGenerate, labelOf,
      intentBackendTried]
  · simp [stC1, otherTool]

/-- C1 (amended): on an intent-analysis outcome naming a tool outside the
catalog, the R2 dispatcher applies the default-tool policy: the only
callTool invocation of the exchange carries the default tool name with the
full message as sole parameter, validated against the default tool's
schema.  When the default tool is in the catalog no unknown name reaches
the tool host; when the default itself is absent, callTool is still invoked
with it. -/
theorem C1_default_policy_amended (st : AgentState) (message : String) (oc : Outcomes)
    (name : String) (ps : JObj)
    (hclient : st.clientInit = true)
    (hkind : st.llm.kind ≠ LLMKind.simple)
    (hintent : oc.intent = .parsed name ps)
    (hunknown : st.availableTools.any (fun t => t.name == name) = false) :
    (sendMessageR2 st message oc).2.toolCalls =
      [(st.defaultToolName,
        validateParameters (st.availableTools.find? (fun t => t.name == st.defaultToolName))
          [("message", JVal.jstr message)])] := by
  have hsel : interpretMessageR2 st message oc.intent =
      (Except.ok ⟨st.defaultToolName, [("message", JVal.jstr message)]⟩,
        intentBackendTried st.llm) := by
    rw [hintent]
    cases hk : st.llm.kind with
    | simple => exact absurd hk hkind
    | openai =>
        cases hci : st.llm.clientInit with
        | true =>
            simp [interpretMessageR2, hclient, llmAnalyzeR2, hk, hci, providerAnalyzeR2,
              hunknown, intentBackendTried]
        | false =>
            simp [interpretMessageR2, hclient, llmAnalyzeR2, hk, hci, intentBackendTried]
    | anthropic =>
        cases hci : st.llm.clientInit with
        | true =>
            simp [interpretMessageR2, hclient, llmAnalyzeR2, hk, hci, providerAnalyzeR2,
              hunknown, intentBackendTried]
        | false =>
            simp [interpretMessageR2, hclient, llmAnalyzeR2, hk, hci, intentBackendTried]
  cases hcall : oc.call with
  | err m => simp [sendMessageR2, hclient, hsel, hcall]
  | ok result =>
      rcases hgen : llmGenerate st.llm result oc.gen with ⟨gr, gb⟩
      cases gr with
      | ok t => simp [sendMessageR2, hclient, hsel, hcall, hgen]
      | error m => simp [sendMessageR2, hclient, hsel, hcall, hgen]

/-- Concrete degraded-provider agent for the amended C1 witness. -/
def stC1w : AgentState := ⟨true, [otherTool], "get_employees", ⟨.anthropic, false⟩⟩

/-- Outcomes for the amended C1 witness. -/
def ocC1w : Outcomes := ⟨.parsed "bogus_tool" [], .err "down", .text "x"⟩

/-- Witness for the amended C1: the default tool name, absent from the
catalog, is what reaches callTool. -/
theorem C1_default_policy_amended_witness :
    (sendMessageR2 stC1w "oi" ocC1w).2.toolCalls =
      [("get_employees", [("message", JVal.jstr "oi")])] := by
  have h := C1_default_policy_amended stC1w "oi" ocC1w "bogus_tool" []
    rfl (by decide) rfl (by decide)
  simpa [stC1w, otherTool, validateParameters] using h

/-- C5: sendMessage on a freshly constructed agent, or on any agent after
close, fails fast with the same MCP-client-not-initialized error and
performs no tool-host or provider I/O — no callTool invocation, no intent
backend request, no grounding invocation. -/
theorem C5_not_initialized_guard (k : LLMKind) (d message : String) (oc : Outcomes)
    (st : AgentState) :
    sendMessageR2 (mkAgent k d) message oc =
        (.error "MCP client not initialized", ⟨[], false, false⟩) ∧
      sendMessageR2 (closeAgentR2 st) message oc =
        (.error "MCP client not initialized", ⟨[], false, false⟩) := by
  constructor
  · simp [sendMessageR2, mkAgent]
  · simp [sendMessageR2, closeAgentR2]

/-- C7: for an initialized provider-backed service, generateResponse never
throws when the backend fails: it returns the fixed fallback sentence
followed by the serialized raw tool result; on backend success it returns
the backend text trimmed; in all cases it resolves. -/
theorem C7_generate_grounded_total (label : String) (resp : JVal) (s : String) :
    providerGenerate true label resp (.text s) = .ok (jsTrim s) ∧
      providerGenerate true label resp .requestError =
        .ok ("Não foi possível elaborar uma resposta contextualizada. Aqui estão os dados brutos: "
          ++ jsonStringify resp) ∧
      providerGenerate true label resp .badFormat =
        .ok ("Não foi possível elaborar uma resposta contextualizada. Aqui estão os dados brutos: "
          ++ jsonStringify resp) ∧
      ∀ o, ∃ t, providerGenerate true label resp o = .ok t := by
  refine ⟨rfl, rfl, rfl, ?_⟩
  intro o
  cases o <;> exact ⟨_, rfl⟩

/-- Concrete R3 agent state with the schema-free service, used against the
later-revision dispatcher. -/
def stC4r3 : AgentState := ⟨true, [otherTool], "get_employees", ⟨.simple, true⟩⟩

/-- Outcomes in which the tool host rejects the call. -/
def ocC4 : Outcomes := ⟨.requestError, .err "boom", .text "x"⟩

/-- C4 (counterexample to the claim as stated): in the later revision of
sendMessage, a callTool rejection is wrapped into the tool-selection error
message, which does not contain the phrase failed to get response. -/
theorem C4_counterexample :
    (sendMessageR3 stC4r3 "use other_tool" ocC4).1 =
        .error "Não foi possível determinar a ferramenta apropriada para a solicitação" ∧
      strIncludes
          (jsToLower "Não foi possível determinar a ferramenta apropriada para a solicitação")
          "failed to get response" = false := by
  constructor
  · have hinc : strIncludes (jsToLower "use other_tool")
        ("use " ++ jsToLower "other_tool") = true := by decide
    simp [sendMessageR3, stC4r3, ocC4, interpretMessageR3, llmAnalyzeR3, simpleAnalyzeR3,
      firstMentionedTool, otherTool, hinc, sendFailR3, validateParameters,
      intentBackendTried]
  · decide

/-- C4 (amended): with a live client, a callTool rejection makes the R2
sendMessage reject with the single wrapped error failed-to-get-response
(case-insensitively containing that phrase) and grounding is never invoked;
in the later revision R3 the exchange also rejects with a single error and
no grounding, but the error is the catalog-dependent tool-selection message
rather than the failed-to-get-response wrapper. -/
theorem C4_wrapped_error_amended (st : AgentState) (message : String) (oc : Outcomes)
    (m : String)
    (hclient : st.clientInit = true)
    (hcall : oc.call = .err m) :
    ((sendMessageR2 st message oc).1 = .error (mcpFailMsg m) ∧
      strIncludes (jsToLower (mcpFailMsg m)) "failed to get response" = true ∧
      (sendMessageR2 st message oc).2.genInvoked = false) ∧
    ((sendMessageR3 st message oc).1 = .error (sendFailR3 st) ∧
      (sendMessageR3 st message oc).2.genInvoked = false) := by
  obtain ⟨sel, b, hsel⟩ := interpretMessageR2_isOk st message oc.intent hclient
  refine ⟨⟨?_, mcpFailMsg_contains_phrase m, ?_⟩, ?_⟩
  · simp [sendMessageR2, hclient, hsel, hcall]
  · simp [sendMessageR2, hclient, hsel, hcall]
  · cases hint : interpretMessageR3 st message oc.intent with
    | error e => exact ⟨by simp [sendMessageR3, hclient, hint], by simp [sendMessageR3, hclient, hint]⟩
    | ok r =>
        exact ⟨by simp [sendMessageR3, hclient, hint, hcall],
          by simp [sendMessageR3, hclient, hint, hcall]⟩

/-- Witness for the amended C4 at a concrete rejecting exchange. -/
theorem C4_wrapped_error_amended_witness :
    (((sendMessageR2 stC4r3 "use other_tool" ocC4).1 = .error (mcpFailMsg "boom") ∧
      strIncludes (jsToLower (mcpFailMsg "boom")) "failed to get response" = true ∧
      (sendMessageR2 stC4r3 "use other_tool" ocC4).2.genInvoked = false) ∧
    ((sendMessageR3 stC4r3 "use other_tool" ocC4).1 = .error (sendFailR3 stC4r3) ∧
      (sendMessageR3 stC4r3 "use other_tool" ocC4).2.genInvoked = false)) :=
  C4_wrapped_error_amended stC4r3 "use other_tool" ocC4 "boom" rfl rfl

/-- The degraded agent state produced by a successful connection whose
provider initialization failed. -/
def degradedAgent : AgentState := ⟨true, [weatherTool], "get_employees", ⟨.openai, false⟩⟩

/-- C6 (counterexample to the claim as stated): after a non-fatal provider
initialization failure the degraded R2 intent analysis does not behave like
the schema-free variant — on a message that names a catalog tool the
degraded path still selects the default tool while the schema-free variant
selects the named tool. -/
theorem C6_counterexample :
    initializeAgentR2 (mkAgent .openai) (.ok [weatherTool]) false = .ok degradedAgent ∧
      (interpretMessageR2 degradedAgent "use get_weather" .requestError).1 =
        .ok ⟨"get_employees", [("message", JVal.jstr "use get_weather")]⟩ ∧
      simpleAnalyzeR2 "use get_weather" [weatherTool] "get_employees" =
        ⟨"get_weather", [("message", JVal.jstr "use get_weather")]⟩ ∧
      (⟨"get_employees", [("message", JVal.jstr "use get_weather")]⟩ : ToolSelection) ≠
        ⟨"get_weather", [("message", JVal.jstr "use get_weather")]⟩ := by
  refine ⟨?_, ?_, ?_, ?_⟩
  · simp [initializeAgentR2, mkAgent, mkLLMState, degradedAgent]
  · simp [interpretMessageR2, degradedAgent, llmAnalyzeR2]
  · have hinc : strIncludes (jsToLower "use get_weather")
        ("use " ++ jsToLower "get_weather") = true := by decide
    simp [simpleAnalyzeR2, firstMentionedTool, weatherTool, hinc]
  · simp

/-- C6 (amended): when the connection and catalog fetch succeed but the
provider initialization fails, initialize still resolves and the session
stays Ready; but the degraded mode is not the schema-free variant: intent
analysis always falls back to the default tool with the full message as
sole parameter, the tool host is still invoked with it, and the exchange
then rejects at response generation with the wrapped
client-not-initialized error. -/
theorem C6_degraded_mode_amended (st : AgentState) (tools : List MCPTool) (message : String)
    (oc : Outcomes) (r : JVal)
    (hkind : st.llm.kind ≠ LLMKind.simple)
    (hllm : st.llm.clientInit = false)
    (hcall : oc.call = .ok r) :
    initializeAgentR2 st (.ok tools) false =
        .ok { st with clientInit := true, availableTools := tools } ∧
      (interpretMessageR2 { st with clientInit := true, availableTools := tools } message
          oc.intent).1 =
        .ok ⟨st.defaultToolName, [("message", JVal.jstr message)]⟩ ∧
      (sendMessageR2 { st with clientInit := true, availableTools := tools } message oc).1 =
        .error (mcpFailMsg (labelOf st.llm.kind ++ " client not initialized")) ∧
      (sendMessageR2 { st with clientInit := true, availableTools := tools } message
          oc).2.toolCalls =
        [(st.defaultToolName,
          validateParameters (tools.find? (fun t => t.name == st.defaultToolName))
            [("message", JVal.jstr message)])] := by
  have hinit : initializeAgentR2 st (.ok tools) false =
      .ok { st with clientInit := true, availableTools := tools } := by
    simp [initializeAgentR2]
  have hsel : interpretMessageR2 { st with clientInit := true, availableTools := tools }
      message oc.intent =
      (Except.ok ⟨st.defaultToolName, [("message", JVal.jstr message)]⟩, false) := by
    cases hk : st.llm.kind with
    | simple => exact absurd hk hkind
    | openai => simp [interpretMessageR2, llmAnalyzeR2, hk, hllm]
    | anthropic => simp [interpretMessageR2, llmAnalyzeR2, hk, hllm]
  have hgen : ∀ res, llmGenerate st.llm res oc.gen =
      (.error (labelOf st.llm.kind ++ " client not initialized"), false) := by
    intro res
    cases hk : st.llm.kind with
    | simple => exact absurd hk hkind
    | openai => simp [llmGenerate, hk, hllm, providerGenerate]
    | anthropic => simp [llmGenerate, hk, hllm, providerGenerate]
  refine ⟨hinit, by simp [hsel], ?_, ?_⟩
  · simp [sendMessageR2, hsel, hcall, hgen r]
  · simp [sendMessageR2, hsel, hcall, hgen r]

/-- Outcomes for the amended C6 witness: a successful tool call whose
grounding then fails on the uninitialized provider. -/
def ocC6 : Outcomes := ⟨.requestError, .ok (.jstr "data"), .text "t"⟩

/-- Witness for the amended C6 at a concrete degraded exchange. -/
theorem C6_degraded_mode_amended_witness :
    initializeAgentR2 (mkAgent .openai) (.ok [weatherTool]) false = .ok degradedAgent ∧
      (interpretMessageR2 degradedAgent "oi" ocC6.intent).1 =
        .ok ⟨"get_employees", [("message", JVal.jstr "oi")]⟩ ∧
      (sendMessageR2 degradedAgent "oi" ocC6).1 =
        .error (mcpFailMsg "OpenAI client not initialized") ∧
      (sendMessageR2 degradedAgent "oi" ocC6).2.toolCalls =
        [("get_employees", [("message", JVal.jstr "oi")])] := by
  have h := C6_degraded_mode_amended (mkAgent .openai) [weatherTool] "oi" ocC6
    (.jstr "data") (by decide) rfl rfl
  simpa [mkAgent, mkLLMState, degradedAgent, labelOf, weatherTool, validateParameters] using h
